import Mathlib

/-!
Verification of the signaling-server session registry and relay.

The Socket.IO variant (src/index.js) is embedded in namespace `SigSrv`;
the plain-WebSocket variant (the unnamed source file) in namespace `SigWs`.

Connection identities (socket ids) and signaling payloads are modelled as
strings; the in-memory `sessions` Map is an association list with JS `Map`
semantics (`set` replaces in place, `delete` removes, `forEach` visits in
insertion order).  JS truthiness tests on possibly-absent string fields
(`if (!sessionId)`, `if (session.clientId)`, ...) are modelled by `truthy`:
`null`/`undefined` and the empty string are falsy, every other string truthy.
-/

namespace SigSrv

/-- JS truthiness of a possibly-null/undefined string value. -/
def truthy : Option String → Bool
  | none => false
  | some s => !(s == "")

/-- The per-role candidate buffers `{ host: [], client: [] }` of a session. -/
structure IceCandidates where
  host : List String
  client : List String
deriving DecidableEq

/-- A Session record as stored in the `sessions` Map by src/index.js. -/
structure Session where
  hostId : String
  clientId : Option String
  offer : Option String
  iceCandidates : IceCandidates
  createdAt : Nat
  clientJoinedAt : Option Nat
deriving DecidableEq

/-- The `sessions` Map: an association list from session code to record. -/
def SMap := List (String × Session)

instance : DecidableEq SMap := by unfold SMap; infer_instance

/-- `Map.get`: first entry with the given key, if any. -/
def mapGet {α : Type} (k : String) : List (String × α) → Option α
  | [] => none
  | (k', v) :: rest => if k' = k then some v else mapGet k rest

/-- `Map.set`: replace the entry in place if the key exists, else append. -/
def mapSet {α : Type} (k : String) (v : α) : List (String × α) → List (String × α)
  | [] => [(k, v)]
  | (k', v') :: rest => if k' = k then (k, v) :: rest else (k', v') :: mapSet k v rest

/-- `Map.delete`: remove the entry with the given key. -/
def mapDelete {α : Type} (k : String) (m : List (String × α)) : List (String × α) :=
  m.filter (fun p => p.1 != k)

/-- Helper `cleanupSession`: delete the session if present (src/index.js:28-33). -/
def cleanupSession (sessionId : String) (m : SMap) : SMap :=
  if (mapGet sessionId m).isSome then mapDelete sessionId m else m

/-- Outbound transport events emitted by the relay (`io.to(id).emit(...)` /
`socket.emit(...)`); `dst` is the destination socket id. -/
inductive Msg where
  | clientJoined (dst : String)
  | offerMsg (dst : String) (payload : String)
  | answerMsg (dst : String) (payload : String)
  | iceCand (dst : String) (origin : String) (candidate : String)
  | hostDisconnected (dst : String)
  | clientDisconnected (dst : String)
deriving DecidableEq

/-- The reply payloads the `joinSession` callback can receive. -/
inductive JoinReply where
  | errNoSessionId
  | errNotFound
  | errFull
  | success
deriving DecidableEq

/-- The fresh Session record inserted by `createSession` (src/index.js:79-88). -/
def freshSession (sid : String) (now : Nat) : Session :=
  { hostId := sid
    clientId := none
    offer := none
    iceCandidates := { host := [], client := [] }
    createdAt := now
    clientJoinedAt := none }

/-- The `createSession` handler (src/index.js:76-104).  The generated code
(`uuidv4().substring(0,6).toUpperCase()`) is passed in as `code`; the handler
stores a fresh session under it with `sessions.set` and replies with the code.
It performs no collision check before the `set`. -/
def createSession (sid code : String) (now : Nat) (m : SMap) : SMap × String :=
  (mapSet code (freshSession sid now) m, code)

/-- The body of the idle-reap timer scheduled by `createSession`
(src/index.js:94-100): fifteen minutes after creation, look the code up again
and clean the session up if it exists and has no client. -/
def idleTimerBody (sessionId : String) (m : SMap) : SMap :=
  match mapGet sessionId m with
  | some session => if truthy session.clientId then m else cleanupSession sessionId m
  | none => m

/-- The `joinSession` handler (src/index.js:107-159): validate, register the
caller as the session's client, notify the host, replay the stored offer and
the buffered host candidates.  Returns (new map, emitted events, reply). -/
def joinSession (sid : String) (sessionId : Option String) (now : Nat) (m : SMap) :
    SMap × List Msg × JoinReply :=
  if !(truthy sessionId) then (m, [], .errNoSessionId)
  else
    let code := sessionId.getD ""
    match mapGet code m with
    | none => (m, [], .errNotFound)
    | some session =>
      if truthy session.clientId then (m, [], .errFull)
      else
        let session' := { session with clientId := some sid, clientJoinedAt := some now }
        let offerMsgs := if truthy session.offer
          then [Msg.offerMsg sid (session.offer.getD "")] else []
        let candMsgs := session.iceCandidates.host.map
          (fun candidate => Msg.iceCand sid "host" candidate)
        (mapSet code session' m, Msg.clientJoined session.hostId :: offerMsgs ++ candMsgs,
          .success)

/-- The `offer` handler (src/index.js:162-184): store the offer (replacing any
previous one) and forward it to the client if one is connected. -/
def offerEvent (_sid : String) (sessionId offer : Option String) (m : SMap) :
    SMap × List Msg :=
  if !(truthy sessionId) || !(truthy offer) then (m, [])
  else
    let code := sessionId.getD ""
    let o := offer.getD ""
    match mapGet code m with
    | none => (m, [])
    | some session =>
      let msgs := if truthy session.clientId
        then [Msg.offerMsg (session.clientId.getD "") o] else []
      (mapSet code { session with offer := some o } m, msgs)

/-- The `answer` handler (src/index.js:186-204): not stored, forwarded to the
host. -/
def answerEvent (_sid : String) (sessionId answer : Option String) (m : SMap) :
    SMap × List Msg :=
  if !(truthy sessionId) || !(truthy answer) then (m, [])
  else
    match mapGet (sessionId.getD "") m with
    | none => (m, [])
    | some session => (m, [Msg.answerMsg session.hostId (answer.getD "")])

/-- The `iceCandidate` handler (src/index.js:207-243): append the candidate to
the sender role's buffer and forward it to the opposite role if present. -/
def iceCandidateEvent (_sid : String) (sessionId candidate : Option String)
    (isHost : Bool) (m : SMap) : SMap × List Msg :=
  if !(truthy sessionId) || !(truthy candidate) then (m, [])
  else
    let code := sessionId.getD ""
    let cand := candidate.getD ""
    match mapGet code m with
    | none => (m, [])
    | some session =>
      let session' := if isHost
        then { session with iceCandidates :=
                { session.iceCandidates with host := session.iceCandidates.host ++ [cand] } }
        else { session with iceCandidates :=
                { session.iceCandidates with client := session.iceCandidates.client ++ [cand] } }
      let msgs :=
        if isHost then
          if truthy session.clientId
            then [Msg.iceCand (session.clientId.getD "") "host" cand] else []
        else
          if !(session.hostId == "")
            then [Msg.iceCand session.hostId "client" cand] else []
      (mapSet code session' m, msgs)

/-- The `disconnect` handler (src/index.js:246-270): walk every session; if the
leaver is its host, notify the client (if any) and delete the session; if the
leaver is its client, notify the host, vacate the client slot and clear the
client-side candidate buffer. -/
def disconnectEvent (sid : String) : SMap → SMap × List Msg
  | [] => ([], [])
  | (code, session) :: rest =>
    let r := disconnectEvent sid rest
    if session.hostId = sid then
      (r.1,
        (if truthy session.clientId
          then [Msg.hostDisconnected (session.clientId.getD "")] else []) ++ r.2)
    else if session.clientId = some sid then
      let session' := { session with
        clientId := none
        iceCandidates := { session.iceCandidates with client := [] } }
      ((code, session') :: r.1, Msg.clientDisconnected session.hostId :: r.2)
    else
      ((code, session) :: r.1, r.2)

/-- Discriminator: is this an `offer` transport event? -/
def Msg.isOffer : Msg → Bool
  | .offerMsg _ _ => true
  | _ => false

/-- Discriminator: is this an `iceCandidate` transport event? -/
def Msg.isIce : Msg → Bool
  | .iceCand _ _ _ => true
  | _ => false

/-- A host that sends a whole list of ICE candidates, one `iceCandidate` event
after the other. -/
def sendHostCands (y code : String) (cs : List String) (m : SMap) : SMap :=
  cs.foldl (fun acc cand => (iceCandidateEvent y (some code) (some cand) true acc).1) m

/-- A concrete paired session: host `h1`, client `c1`. -/
def pairedEx : Session :=
  { hostId := "h1"
    clientId := some "c1"
    offer := none
    iceCandidates := { host := [], client := [] }
    createdAt := 0
    clientJoinedAt := some 1 }

/-- A concrete paired session with a stored offer and buffered candidates on
both sides. -/
def richEx : Session :=
  { hostId := "h1"
    clientId := some "c1"
    offer := some "sdpA"
    iceCandidates := { host := ["u1"], client := ["v1"] }
    createdAt := 0
    clientJoinedAt := some 3 }

/-- Scenario state: session `AAAAAA` freshly created by host `h1` at time 0. -/
def churn0 : SMap := (createSession "h1" "AAAAAA" 0 []).1

/-- Scenario state: client `c1` has joined `AAAAAA` at time 50, before expiry. -/
def churn1 : SMap := (joinSession "c1" (some "AAAAAA") 50 churn0).1

/-- Scenario state: client `c1` has disconnected again, before the idle timer
for `AAAAAA` fires. -/
def churn2 : SMap := (disconnectEvent "c1" churn1).1

/-- Scenario state: session `BBBBBB` was created by `h1` at time 0, deleted,
and the code was then reused for a fresh session by `h2` at time 200 — all
before the idle-reap timer scheduled for the first session fires. -/
def reusedCode : SMap :=
  (createSession "h2" "BBBBBB" 200
    (cleanupSession "BBBBBB" (createSession "h1" "BBBBBB" 0 []).1)).1

end SigSrv

namespace SigWs

open SigSrv (mapGet mapSet mapDelete)

/-- A connection record `{ ws, id }` of the WebSocket variant; `ws` is the
underlying socket (modelled by its identity string), `id` a numeric id. -/
structure Conn where
  ws : String
  id : Nat
deriving DecidableEq

/-- A session record `{ host: null, clients: [] }` of the WebSocket variant. -/
structure WsSession where
  host : Option Conn
  clients : List Conn
deriving DecidableEq

/-- Messages the WebSocket variant sends (`ws.send(JSON.stringify(...))`);
`dst` is the identity of the destination socket. -/
inductive WsMsg where
  | hostDisconnectedMsg (dst : String)
  | clientDisconnectedMsg (dst : String) (clientId : Nat)
  | hostReady (dst : String)
deriving DecidableEq

/-- The `sessions` Map of the WebSocket variant. -/
def WsMap := List (String × WsSession)

instance : DecidableEq WsMap := by unfold WsMap; infer_instance

/-- The `close` handler of the WebSocket variant, host branch: if the session
exists and the closing socket is its host, notify every client with
`host-disconnected`, clear the host, and delete the session only when no
clients remain. -/
def wsCloseHost (w : String) (sessionCode : String) (m : WsMap) : WsMap × List WsMsg :=
  match mapGet sessionCode m with
  | none => (m, [])
  | some session =>
    match session.host with
    | some h =>
      if h.ws = w then
        let msgs := session.clients.map (fun c => WsMsg.hostDisconnectedMsg c.ws)
        let session' := { session with host := none }
        if session'.clients.length = 0 then (mapDelete sessionCode m, msgs)
        else (mapSet sessionCode session' m, msgs)
      else (m, [])
    | none => (m, [])

/-- A concrete WebSocket-variant session: host socket `w1`, one client `w2`. -/
def wsPairedEx : WsSession :=
  { host := some { ws := "w1", id := 10 }
    clients := [{ ws := "w2", id := 20 }] }

end SigWs

namespace SigSrv

theorem mapGet_set_self {α : Type} (k : String) (v : α) (m : List (String × α)) :
    mapGet k (mapSet k v m) = some v := by
  induction m with
  | nil => simp [mapGet, mapSet]
  | cons hd tl ih =>
    obtain ⟨k', v'⟩ := hd
    by_cases h : k' = k
    · simp [mapGet, mapSet, h]
    · simp [mapGet, mapSet, h, ih]

theorem mapGet_set_ne {α : Type} (k k' : String) (v : α) (m : List (String × α))
    (h : k' ≠ k) : mapGet k' (mapSet k v m) = mapGet k' m := by
  induction m with
  | nil => simp [mapGet, mapSet, Ne.symm h]
  | cons hd tl ih =>
    obtain ⟨k₀, v₀⟩ := hd
    by_cases h₀ : k₀ = k
    · subst h₀
      simp [mapGet, mapSet, Ne.symm h]
    · simp only [mapSet, if_neg h₀, mapGet]
      by_cases h₁ : k₀ = k'
      · simp [h₁]
      · simp [h₁, ih]

theorem mapGet_delete_self {α : Type} (k : String) (m : List (String × α)) :
    mapGet k (mapDelete k m) = none := by
  induction m with
  | nil => simp [mapGet, mapDelete]
  | cons hd tl ih =>
    obtain ⟨k', v'⟩ := hd
    by_cases h : k' = k
    · simpa [mapDelete, h] using ih
    · simpa [mapDelete, mapGet, h] using ih

theorem mapGet_cleanup_self (k : String) (m : SMap) :
    mapGet k (cleanupSession k m) = none := by
  unfold cleanupSession
  cases hget : mapGet k m with
  | none => simp [hget]
  | some s => simp [hget, mapGet_delete_self]

theorem truthy_some (s : String) : truthy (some s) = !(s == "") := rfl

theorem truthy_none : truthy none = false := rfl

theorem mapGet_eq_none_of_not_mem {α : Type} (k : String) (m : List (String × α))
    (h : k ∉ m.map Prod.fst) : mapGet k m = none := by
  induction m with
  | nil => rfl
  | cons hd tl ih =>
    obtain ⟨k', v⟩ := hd
    simp only [List.map_cons, List.mem_cons] at h
    push_neg at h
    simp [mapGet, Ne.symm h.1, ih h.2]

theorem disconnect_keys_subset (sid : String) (m : SMap) :
    ((disconnectEvent sid m).1.map Prod.fst) ⊆ m.map Prod.fst := by
  induction m with
  | nil => simp [disconnectEvent]
  | cons hd tl ih =>
    obtain ⟨code, s⟩ := hd
    by_cases hh : s.hostId = sid
    · simp only [disconnectEvent, if_pos hh, List.map_cons]
      exact fun a ha => List.mem_cons_of_mem _ (ih ha)
    · by_cases hc : s.clientId = some sid
      · simp only [disconnectEvent, if_neg hh, if_pos hc, List.map_cons]
        intro a ha
        rcases List.mem_cons.mp ha with h₁ | h₁
        · exact List.mem_cons.mpr (Or.inl h₁)
        · exact List.mem_cons_of_mem _ (ih h₁)
      · simp only [disconnectEvent, if_neg hh, if_neg hc, List.map_cons]
        intro a ha
        rcases List.mem_cons.mp ha with h₁ | h₁
        · exact List.mem_cons.mpr (Or.inl h₁)
        · exact List.mem_cons_of_mem _ (ih h₁)

theorem disconnect_get_none (sid code : String) (m : SMap)
    (h : mapGet code m = none) : mapGet code (disconnectEvent sid m).1 = none := by
  induction m with
  | nil => simp [disconnectEvent, mapGet]
  | cons hd tl ih =>
    obtain ⟨k, s⟩ := hd
    simp only [mapGet] at h
    by_cases hk : k = code
    · simp [hk] at h
    · simp only [if_neg hk] at h
      by_cases hh : s.hostId = sid
      · simpa [disconnectEvent, if_pos hh] using ih h
      · by_cases hc : s.clientId = some sid
        · simpa [disconnectEvent, if_neg hh, if_pos hc, mapGet, if_neg hk] using ih h
        · simpa [disconnectEvent, if_neg hh, if_neg hc, mapGet, if_neg hk] using ih h

theorem mapGet_disconnect_host (sid code : String) (m : SMap) (s : Session)
    (hnd : (m.map Prod.fst).Nodup) (hget : mapGet code m = some s)
    (hh : s.hostId = sid) : mapGet code (disconnectEvent sid m).1 = none := by
  induction m with
  | nil => simp [mapGet] at hget
  | cons hd tl ih =>
    obtain ⟨k, v⟩ := hd
    simp only [List.map_cons, List.nodup_cons] at hnd
    simp only [mapGet] at hget
    by_cases hk : k = code
    · subst hk
      rw [if_pos rfl] at hget
      injection hget with hget
      subst hget
      simp only [disconnectEvent, if_pos hh]
      exact disconnect_get_none sid k tl (mapGet_eq_none_of_not_mem k tl hnd.1)
    · simp only [if_neg hk] at hget
      have htail := ih hnd.2 hget
      by_cases hh' : v.hostId = sid
      · simpa [disconnectEvent, if_pos hh'] using htail
      · by_cases hc : v.clientId = some sid
        · simpa [disconnectEvent, if_neg hh', if_pos hc, mapGet, if_neg hk] using htail
        · simpa [disconnectEvent, if_neg hh', if_neg hc, mapGet, if_neg hk] using htail

theorem disconnect_host_msg (sid code : String) (m : SMap) (s : Session) (c : String)
    (hget : mapGet code m = some s) (hh : s.hostId = sid)
    (hc : s.clientId = some c) (hcne : c ≠ "") :
    Msg.hostDisconnected c ∈ (disconnectEvent sid m).2 := by
  induction m with
  | nil => simp [mapGet] at hget
  | cons hd tl ih =>
    obtain ⟨k, v⟩ := hd
    simp only [mapGet] at hget
    by_cases hk : k = code
    · simp only [if_pos hk, Option.some.injEq] at hget
      subst hget
      simp [disconnectEvent, if_pos hh, hc, truthy, hcne]
    · simp only [if_neg hk] at hget
      have htail := ih hget
      by_cases hh' : v.hostId = sid
      · simp only [disconnectEvent, if_pos hh']
        exact List.mem_append.mpr (Or.inr htail)
      · by_cases hc' : v.clientId = some sid
        · simp only [disconnectEvent, if_neg hh', if_pos hc']
          exact List.mem_cons_of_mem _ htail
        · simpa [disconnectEvent, if_neg hh', if_neg hc'] using htail

theorem mapGet_disconnect_client (sid code : String) (m : SMap) (s : Session)
    (hnd : (m.map Prod.fst).Nodup) (hget : mapGet code m = some s)
    (hh : s.hostId ≠ sid) (hc : s.clientId = some sid) :
    mapGet code (disconnectEvent sid m).1 =
      some { s with clientId := none, iceCandidates := { s.iceCandidates with client := [] } } := by
  induction m with
  | nil => simp [mapGet] at hget
  | cons hd tl ih =>
    obtain ⟨k, v⟩ := hd
    simp only [List.map_cons, List.nodup_cons] at hnd
    simp only [mapGet] at hget
    by_cases hk : k = code
    · subst hk
      rw [if_pos rfl] at hget
      injection hget with hget
      subst hget
      simp [disconnectEvent, if_neg hh, if_pos hc, mapGet]
    · simp only [if_neg hk] at hget
      have htail := ih hnd.2 hget
      by_cases hh' : v.hostId = sid
      · simpa [disconnectEvent, if_pos hh'] using htail
      · by_cases hc' : v.clientId = some sid
        · simpa [disconnectEvent, if_neg hh', if_pos hc', mapGet, if_neg hk] using htail
        · simpa [disconnectEvent, if_neg hh', if_neg hc', mapGet, if_neg hk] using htail

theorem disconnect_client_msg (sid code : String) (m : SMap) (s : Session)
    (hget : mapGet code m = some s) (hh : s.hostId ≠ sid) (hc : s.clientId = some sid) :
    Msg.clientDisconnected s.hostId ∈ (disconnectEvent sid m).2 := by
  induction m with
  | nil => simp [mapGet] at hget
  | cons hd tl ih =>
    obtain ⟨k, v⟩ := hd
    simp only [mapGet] at hget
    by_cases hk : k = code
    · simp only [if_pos hk, Option.some.injEq] at hget
      subst hget
      simp [disconnectEvent, if_neg hh, if_pos hc]
    · simp only [if_neg hk] at hget
      have htail := ih hget
      by_cases hh' : v.hostId = sid
      · simp only [disconnectEvent, if_pos hh']
        exact List.mem_append.mpr (Or.inr htail)
      · by_cases hc' : v.clientId = some sid
        · simp only [disconnectEvent, if_neg hh', if_pos hc']
          exact List.mem_cons_of_mem _ htail
        · simpa [disconnectEvent, if_neg hh', if_neg hc'] using htail

theorem joinSession_not_found (x code : String) (now : Nat) (m : SMap)
    (hcode : code ≠ "") (h : mapGet code m = none) :
    joinSession x (some code) now m = (m, [], JoinReply.errNotFound) := by
  simp [joinSession, truthy_some, hcode, h]

theorem joinSession_full (x code : String) (now : Nat) (m : SMap) (s : Session)
    (hcode : code ≠ "") (hget : mapGet code m = some s)
    (hfull : truthy s.clientId = true) :
    joinSession x (some code) now m = (m, [], JoinReply.errFull) := by
  simp [joinSession, truthy_some, hcode, hget, hfull]

theorem joinSession_success_eq (x code : String) (now : Nat) (m : SMap) (s : Session)
    (hcode : code ≠ "") (hget : mapGet code m = some s)
    (hfree : truthy s.clientId = false) :
    joinSession x (some code) now m =
      (mapSet code { s with clientId := some x, clientJoinedAt := some now } m,
        Msg.clientJoined s.hostId ::
          (if truthy s.offer then [Msg.offerMsg x (s.offer.getD "")] else []) ++
          s.iceCandidates.host.map (fun candidate => Msg.iceCand x "host" candidate),
        JoinReply.success) := by
  simp [joinSession, truthy_some, hcode, hget, hfree]

theorem filter_isOffer_candMap (x o : String) (l : List String) :
    (l.map (fun candidate => Msg.iceCand x o candidate)).filter Msg.isOffer = [] := by
  induction l with
  | nil => rfl
  | cons c cs ih => simp [Msg.isOffer, List.filter_cons, ih]

theorem filter_isIce_candMap (x o : String) (l : List String) :
    (l.map (fun candidate => Msg.iceCand x o candidate)).filter Msg.isIce =
      l.map (fun candidate => Msg.iceCand x o candidate) := by
  induction l with
  | nil => rfl
  | cons c cs ih => simp [Msg.isIce, List.filter_cons, ih]

theorem offerEvent_store (y code o : String) (m : SMap) (s : Session)
    (hcode : code ≠ "") (ho : o ≠ "") (hget : mapGet code m = some s) :
    (offerEvent y (some code) (some o) m).1 = mapSet code { s with offer := some o } m := by
  simp [offerEvent, truthy_some, hcode, ho, hget]

theorem iceCandidateEvent_host_store (y code cand : String) (m : SMap) (s : Session)
    (hcode : code ≠ "") (hc : cand ≠ "") (hget : mapGet code m = some s) :
    (iceCandidateEvent y (some code) (some cand) true m).1 =
      mapSet code { s with iceCandidates :=
        { s.iceCandidates with host := s.iceCandidates.host ++ [cand] } } m := by
  simp [iceCandidateEvent, truthy_some, hcode, hc, hget]

theorem iceCandidateEvent_host_forward (y code cand cl : String) (m : SMap) (s : Session)
    (hcode : code ≠ "") (hc : cand ≠ "") (hget : mapGet code m = some s)
    (hcl : s.clientId = some cl) (hclne : cl ≠ "") :
    (iceCandidateEvent y (some code) (some cand) true m).2 = [Msg.iceCand cl "host" cand] := by
  simp [iceCandidateEvent, truthy_some, hcode, hc, hget, hcl, hclne]

theorem sendHostCands_get (y code : String) (cs : List String) :
    ∀ (m : SMap) (s : Session), mapGet code m = some s → code ≠ "" →
      (∀ c ∈ cs, c ≠ "") →
      mapGet code (sendHostCands y code cs m) =
        some { s with iceCandidates :=
          { s.iceCandidates with host := s.iceCandidates.host ++ cs } } := by
  induction cs with
  | nil =>
    intro m s hget _ _
    simpa [sendHostCands] using hget
  | cons c cs ih =>
    intro m s hget hcode hcs
    have hc : c ≠ "" := hcs c (List.mem_cons_self c cs)
    have hstep := iceCandidateEvent_host_store y code c m s hcode hc hget
    have hget1 : mapGet code ((iceCandidateEvent y (some code) (some c) true m).1) =
        some { s with iceCandidates :=
          { s.iceCandidates with host := s.iceCandidates.host ++ [c] } } := by
      rw [hstep]; exact mapGet_set_self _ _ _
    have hrest := ih ((iceCandidateEvent y (some code) (some c) true m).1) _ hget1 hcode
      (fun d hd => hcs d (List.mem_cons_of_mem c hd))
    simp only [sendHostCands, List.foldl_cons] at hrest ⊢
    rw [hrest]
    simp [List.append_assoc]

end SigSrv

namespace SigSrv

/-- Claim C1 counterexample: `createSession` performs no collision check.
With session `ABC123` (host `h1`, created at 0) active, a `createSession` for
which the generator happens to produce the same code `ABC123` silently
overwrites the existing record with the new host's fresh session instead of
regenerating. -/
theorem createSession_collision_overwrites_cex :
    mapGet "ABC123" [("ABC123", freshSession "h1" 0)] = some (freshSession "h1" 0) ∧
    mapGet "ABC123" (createSession "h2" "ABC123" 5 [("ABC123", freshSession "h1" 0)]).1
      = some (freshSession "h2" 5) ∧
    freshSession "h2" 5 ≠ freshSession "h1" 0 := by
  decide

/-- Claim C1 (amended): `createSession` unconditionally stores a fresh empty
session under the generated code and returns that code; on a collision with a
currently active session the existing record is overwritten, never
regenerated. -/
theorem createSession_unconditional_insert (sid code : String) (now : Nat) (m : SMap) :
    mapGet code (createSession sid code now m).1 = some (freshSession sid now) ∧
    (createSession sid code now m).2 = code :=
  ⟨mapGet_set_self code (freshSession sid now) m, rfl⟩

/-- Claim C6 counterexample: a session that gained a client before expiry is
nevertheless deleted by the idle timer if that client disconnected again
before the timer fired — the timer checks the current `clientId`, not whether
a client ever joined. -/
theorem idle_reap_churn_cex :
    (mapGet "AAAAAA" churn1).map Session.clientId = some (some "c1") ∧
    (mapGet "AAAAAA" churn2).isSome = true ∧
    mapGet "AAAAAA" (idleTimerBody "AAAAAA" churn2) = none := by
  decide

/-- Claim C6 (amended): when the idle timer fires, the session is deleted iff
it still exists and has no currently registered client at that moment; a
session whose client slot is occupied when the timer fires is left untouched.
(A session that gained a client but lost it again before expiry is deleted.) -/
theorem idle_reap (m : SMap) (code : String) (s : Session)
    (hget : mapGet code m = some s) :
    (truthy s.clientId = false → mapGet code (idleTimerBody code m) = none) ∧
    (truthy s.clientId = true → idleTimerBody code m = m) := by
  constructor
  · intro h
    simp [idleTimerBody, hget, h, mapGet_cleanup_self]
  · intro h
    simp [idleTimerBody, hget, h]

/-- Witness for `idle_reap`: a clientless session is reaped; a paired one is
kept. -/
theorem idle_reap_witness :
    mapGet "CCCCCC" (idleTimerBody "CCCCCC" [("CCCCCC", freshSession "h1" 0)]) = none ∧
    idleTimerBody "DDDDDD" [("DDDDDD", pairedEx)] = [("DDDDDD", pairedEx)] := by
  constructor
  · exact (idle_reap [("CCCCCC", freshSession "h1" 0)] "CCCCCC" (freshSession "h1" 0)
      (by decide)).1 (by decide)
  · exact (idle_reap [("DDDDDD", pairedEx)] "DDDDDD" pairedEx (by decide)).2 (by decide)

/-- Claim C7 counterexample: the idle timer identifies its session only by
code.  The timer scheduled for the session created at time 0 under `BBBBBB`
fires after that session was deleted and the code was reused by a later,
distinct session (created at 200); the stale firing deletes the later
session. -/
theorem stale_timer_deletes_reused_code_cex :
    mapGet "BBBBBB" reusedCode = some (freshSession "h2" 200) ∧
    freshSession "h2" 200 ≠ freshSession "h1" 0 ∧
    mapGet "BBBBBB" (idleTimerBody "BBBBBB" reusedCode) = none := by
  decide

/-- Claim C7 (amended): a stale idle-timer firing is a no-op when its code is
absent from the registry; but the timer acts on whatever session currently
holds its code, so a later clientless session that reused the code is deleted
by the stale firing. -/
theorem stale_timer (m : SMap) (code : String) :
    (mapGet code m = none → idleTimerBody code m = m) ∧
    (∀ s : Session, mapGet code m = some s → truthy s.clientId = false →
      mapGet code (idleTimerBody code m) = none) := by
  constructor
  · intro h
    simp [idleTimerBody, h]
  · intro s hget hc
    simp [idleTimerBody, hget, hc, mapGet_cleanup_self]

/-- Witness for `stale_timer`: firing on an empty registry is a no-op; firing
on a registry holding a clientless session under the code deletes it. -/
theorem stale_timer_witness :
    idleTimerBody "EEEEEE" ([] : SMap) = [] ∧
    mapGet "FFFFFF" (idleTimerBody "FFFFFF" [("FFFFFF", freshSession "h9" 7)]) = none := by
  constructor
  · exact (stale_timer [] "EEEEEE").1 (by decide)
  · exact (stale_timer [("FFFFFF", freshSession "h9" 7)] "FFFFFF").2 (freshSession "h9" 7)
      (by decide) (by decide)

/-- Claim C8: a `joinSession` on a session that already has a registered
client replies "Session is full" to the caller, leaves the registry (and thus
the existing client registration) unchanged, and emits no notification to any
participant. -/
theorem second_join_is_full (m : SMap) (code x : String) (now : Nat) (s : Session)
    (hcode : code ≠ "") (hget : mapGet code m = some s)
    (hfull : truthy s.clientId = true) :
    joinSession x (some code) now m = (m, [], JoinReply.errFull) :=
  joinSession_full x code now m s hcode hget hfull

/-- Witness for `second_join_is_full`: a second client bounces off the
concrete paired session. -/
theorem second_join_is_full_witness :
    joinSession "c2" (some "GGGGGG") 60 [("GGGGGG", pairedEx)]
      = ([("GGGGGG", pairedEx)], [], JoinReply.errFull) :=
  second_join_is_full [("GGGGGG", pairedEx)] "GGGGGG" "c2" 60 pairedEx
    (by decide) (by decide) (by decide)

/-- Claim C10: the `offer`, `answer` and `iceCandidate` handlers never consult
the sender's identity — two arbitrary connections sending the same payload
produce the identical registry mutation and the identical forwarded messages,
whether or not either one is the session's registered host or client. -/
theorem handlers_ignore_sender (m : SMap) (c₁ c₂ : String)
    (sessionId payload : Option String) (isHost : Bool) :
    offerEvent c₁ sessionId payload m = offerEvent c₂ sessionId payload m ∧
    answerEvent c₁ sessionId payload m = answerEvent c₂ sessionId payload m ∧
    iceCandidateEvent c₁ sessionId payload isHost m
      = iceCandidateEvent c₂ sessionId payload isHost m :=
  ⟨rfl, rfl, rfl⟩

end SigSrv

namespace SigSrv

/-- Claim C3: when the host of a paired session disconnects, the client is
notified with `hostDisconnected`, the session disappears from the registry,
and an immediately subsequent `joinSession` with the same code answers
"Session not found" without mutating the registry. -/
theorem host_disconnect_removes_session (m : SMap) (code c : String) (s : Session)
    (hnd : (m.map Prod.fst).Nodup) (hget : mapGet code m = some s)
    (hc : s.clientId = some c) (hcne : c ≠ "") (hcode : code ≠ "") :
    Msg.hostDisconnected c ∈ (disconnectEvent s.hostId m).2 ∧
    mapGet code (disconnectEvent s.hostId m).1 = none ∧
    ∀ (x : String) (now : Nat),
      joinSession x (some code) now (disconnectEvent s.hostId m).1
        = ((disconnectEvent s.hostId m).1, [], JoinReply.errNotFound) := by
  have h₁ := disconnect_host_msg s.hostId code m s c hget rfl hc hcne
  have h₂ := mapGet_disconnect_host s.hostId code m s hnd hget rfl
  exact ⟨h₁, h₂, fun x now => joinSession_not_found x code now _ hcode h₂⟩

/-- Witness for `host_disconnect_removes_session` on the concrete paired
session. -/
theorem host_disconnect_removes_session_witness :
    Msg.hostDisconnected "c1" ∈ (disconnectEvent pairedEx.hostId [("HHHHHH", pairedEx)]).2 ∧
    mapGet "HHHHHH" (disconnectEvent pairedEx.hostId [("HHHHHH", pairedEx)]).1 = none ∧
    joinSession "c2" (some "HHHHHH") 99 (disconnectEvent pairedEx.hostId [("HHHHHH", pairedEx)]).1
      = ((disconnectEvent pairedEx.hostId [("HHHHHH", pairedEx)]).1, [],
          JoinReply.errNotFound) := by
  have h := host_disconnect_removes_session [("HHHHHH", pairedEx)] "HHHHHH" "c1" pairedEx
    (by decide) (by decide) (by decide) (by decide) (by decide)
  exact ⟨h.1, h.2.1, h.2.2 "c2" 99⟩

/-- Claim C4: the stored offer is replaced, never appended.  After offers with
payloads `A` then `B` arrive (from any senders) while no client has joined, a
joining client receives exactly one buffered offer and its payload is `B`, and
the join succeeds. -/
theorem offer_replaced_not_appended (m : SMap) (code A B x y z : String) (now : Nat)
    (s : Session) (hcode : code ≠ "") (hA : A ≠ "") (hB : B ≠ "")
    (hget : mapGet code m = some s) (hfree : truthy s.clientId = false) :
    ((joinSession x (some code) now
        (offerEvent z (some code) (some B)
          (offerEvent y (some code) (some A) m).1).1).2.1).filter Msg.isOffer
      = [Msg.offerMsg x B] ∧
    (joinSession x (some code) now
        (offerEvent z (some code) (some B)
          (offerEvent y (some code) (some A) m).1).1).2.2
      = JoinReply.success := by
  have hm1 := offerEvent_store y code A m s hcode hA hget
  have hget1 : mapGet code (offerEvent y (some code) (some A) m).1
      = some { s with offer := some A } := by
    rw [hm1]; exact mapGet_set_self _ _ _
  have hm2 := offerEvent_store z code B _ { s with offer := some A } hcode hB hget1
  have hget2 : mapGet code
      (offerEvent z (some code) (some B) (offerEvent y (some code) (some A) m).1).1
      = some { s with offer := some B } := by
    rw [hm2]; exact mapGet_set_self _ _ _
  have hfree2 : truthy ({ s with offer := some B } : Session).clientId = false := hfree
  have hjoin := joinSession_success_eq x code now _ { s with offer := some B }
    hcode hget2 hfree2
  rw [hjoin]
  constructor
  · simp [Msg.isOffer, truthy_some, hB, List.filter_cons, List.filter_append,
      filter_isOffer_candMap]
  · rfl

/-- Witness for `offer_replaced_not_appended`: host `h1` sends offers "sdpA"
then "sdpB" into a fresh session, then client `c1` joins. -/
theorem offer_replaced_not_appended_witness :
    ((joinSession "c1" (some "JJJJJJ") 70
        (offerEvent "h1" (some "JJJJJJ") (some "sdpB")
          (offerEvent "h1" (some "JJJJJJ") (some "sdpA")
            [("JJJJJJ", freshSession "h1" 0)]).1).1).2.1).filter Msg.isOffer
      = [Msg.offerMsg "c1" "sdpB"] ∧
    (joinSession "c1" (some "JJJJJJ") 70
        (offerEvent "h1" (some "JJJJJJ") (some "sdpB")
          (offerEvent "h1" (some "JJJJJJ") (some "sdpA")
            [("JJJJJJ", freshSession "h1" 0)]).1).1).2.2
      = JoinReply.success :=
  offer_replaced_not_appended [("JJJJJJ", freshSession "h1" 0)] "JJJJJJ" "sdpA" "sdpB"
    "c1" "h1" "h1" 70 (freshSession "h1" 0)
    (by decide) (by decide) (by decide) (by decide) (by decide)

/-- Claim C5: host candidates sent before any client joined are buffered in
arrival order and replayed to the joining client exactly as that list, in
order; a host candidate sent after the join is forwarded to the client live. -/
theorem host_candidates_replayed_in_order (m : SMap) (code x y c' : String) (now : Nat)
    (cs : List String) (s : Session)
    (hcode : code ≠ "") (hx : x ≠ "") (hc' : c' ≠ "")
    (hcs : ∀ c ∈ cs, c ≠ "")
    (hget : mapGet code m = some s) (hfree : s.clientId = none)
    (hempty : s.iceCandidates.host = []) :
    (((joinSession x (some code) now (sendHostCands y code cs m)).2.1).filter Msg.isIce
        = cs.map (fun candidate => Msg.iceCand x "host" candidate)) ∧
    ((iceCandidateEvent y (some code) (some c') true
          (joinSession x (some code) now (sendHostCands y code cs m)).1).2
      = [Msg.iceCand x "host" c']) := by
  have hget2 := sendHostCands_get y code cs m s hget hcode hcs
  have hfree2 : truthy ({ s with iceCandidates :=
      { s.iceCandidates with host := s.iceCandidates.host ++ cs } } : Session).clientId
      = false := by
    show truthy s.clientId = false
    rw [hfree]
    rfl
  have hjoin := joinSession_success_eq x code now _ _ hcode hget2 hfree2
  constructor
  · rw [hjoin]
    cases htr : truthy s.offer with
    | false =>
      simp [Msg.isIce, htr, hempty, List.filter_cons, filter_isIce_candMap]
    | true =>
      simp [Msg.isIce, htr, hempty, List.filter_cons, filter_isIce_candMap]
  · have hmap : (joinSession x (some code) now (sendHostCands y code cs m)).1
        = mapSet code { s with
            clientId := some x
            clientJoinedAt := some now
            iceCandidates := { s.iceCandidates with host := s.iceCandidates.host ++ cs } }
          (sendHostCands y code cs m) := by
      rw [hjoin]
    have hget3 : mapGet code (joinSession x (some code) now (sendHostCands y code cs m)).1
        = some { s with
            clientId := some x
            clientJoinedAt := some now
            iceCandidates := { s.iceCandidates with host := s.iceCandidates.host ++ cs } } := by
      rw [hmap]; exact mapGet_set_self _ _ _
    exact iceCandidateEvent_host_forward y code c' x _ _ hcode hc' hget3 rfl hx

/-- Witness for `host_candidates_replayed_in_order`: three candidates are
buffered in a fresh session, replayed in order to the joining client `c1`, and
a fourth is forwarded live. -/
theorem host_candidates_replayed_in_order_witness :
    (((joinSession "c1" (some "KKKKKK") 80
          (sendHostCands "h1" "KKKKKK" ["u1", "u2", "u3"]
            [("KKKKKK", freshSession "h1" 0)])).2.1).filter Msg.isIce
        = ["u1", "u2", "u3"].map (fun candidate => Msg.iceCand "c1" "host" candidate)) ∧
    ((iceCandidateEvent "h1" (some "KKKKKK") (some "u4") true
          (joinSession "c1" (some "KKKKKK") 80
            (sendHostCands "h1" "KKKKKK" ["u1", "u2", "u3"]
              [("KKKKKK", freshSession "h1" 0)])).1).2
      = [Msg.iceCand "c1" "host" "u4"]) :=
  host_candidates_replayed_in_order [("KKKKKK", freshSession "h1" 0)] "KKKKKK" "c1" "h1"
    "u4" 80 ["u1", "u2", "u3"] (freshSession "h1" 0)
    (by decide) (by decide) (by decide) (by decide) (by decide) (by decide) (by decide)

/-- Claim C9: when a registered client (distinct from the host socket)
disconnects, the session keeps its entry: the client slot is vacated and the
client-side candidate buffer is cleared, while the host-side candidate buffer,
the stored offer and the host registration are unchanged; the host is notified
with `clientDisconnected`. -/
theorem client_disconnect_clears_only_client_state (m : SMap) (code c : String)
    (s : Session) (hnd : (m.map Prod.fst).Nodup) (hget : mapGet code m = some s)
    (hc : s.clientId = some c) (hne : s.hostId ≠ c) :
    mapGet code (disconnectEvent c m).1 = some { s with clientId := none, iceCandidates := { s.iceCandidates with client := [] } } ∧
    ({ s with clientId := none, iceCandidates := { s.iceCandidates with client := [] } } : Session).iceCandidates.host = s.iceCandidates.host ∧
    ({ s with clientId := none, iceCandidates := { s.iceCandidates with client := [] } } : Session).offer = s.offer ∧
    ({ s with clientId := none, iceCandidates := { s.iceCandidates with client := [] } } : Session).hostId = s.hostId ∧
    Msg.clientDisconnected s.hostId ∈ (disconnectEvent c m).2 := by
  refine ⟨mapGet_disconnect_client c code m s hnd hget hne hc, rfl, rfl, rfl, ?_⟩
  exact disconnect_client_msg c code m s hget hne hc

/-- Witness for `client_disconnect_clears_only_client_state` on the concrete
session `richEx`, which has buffered candidates on both sides and a stored
offer. -/
theorem client_disconnect_clears_only_client_state_witness :
    mapGet "MMMMMM" (disconnectEvent "c1" [("MMMMMM", richEx)]).1 = some { richEx with clientId := none, iceCandidates := { richEx.iceCandidates with client := [] } } ∧
    Msg.clientDisconnected richEx.hostId ∈ (disconnectEvent "c1" [("MMMMMM", richEx)]).2 := by
  have h := client_disconnect_clears_only_client_state [("MMMMMM", richEx)] "MMMMMM" "c1"
    richEx (by decide) (by decide) (by decide) (by decide)
  exact ⟨h.1, h.2.2.2.2⟩

end SigSrv

namespace SigWs

open SigSrv (mapGet mapSet mapDelete)

/-- Claim C2 counterexample (Socket.IO variant): when the host of session
`ABC123` disconnects while client `c1` is still registered, the session is
deleted anyway — it is not retained with a vacant host slot, refuting "the
session is deleted only if no clients remain" for src/index.js. -/
theorem host_disconnect_retention_cex :
    SigSrv.mapGet "ABC123" [("ABC123", SigSrv.pairedEx)] = some SigSrv.pairedEx ∧
    SigSrv.pairedEx.clientId = some "c1" ∧
    SigSrv.mapGet "ABC123"
      (SigSrv.disconnectEvent "h1" [("ABC123", SigSrv.pairedEx)]).1 = none := by
  decide

/-- Claim C2 (amended): in the WebSocket variant's close handler the claim
holds as stated — the host slot is cleared, every client of the session is
notified with `host-disconnected`, and the session is deleted only if no
clients remain — while in the Socket.IO variant the host's disconnect
notifies the registered client (if any) with `hostDisconnected` and then
always deletes the session, whether or not a client is still registered. -/
theorem host_disconnect_amended (m : WsMap) (sessionCode w : String)
    (s : WsSession) (h : Conn)
    (hget : mapGet sessionCode m = some s) (hhost : s.host = some h) (hw : h.ws = w) :
    ((wsCloseHost w sessionCode m).2
      = s.clients.map (fun c => WsMsg.hostDisconnectedMsg c.ws)) ∧
    (s.clients = [] → mapGet sessionCode (wsCloseHost w sessionCode m).1 = none) ∧
    (s.clients ≠ [] →
      mapGet sessionCode (wsCloseHost w sessionCode m).1 = some { s with host := none }) ∧
    (∀ (m₂ : SigSrv.SMap) (code₂ : String) (s₂ : SigSrv.Session),
      (m₂.map Prod.fst).Nodup → SigSrv.mapGet code₂ m₂ = some s₂ →
      SigSrv.mapGet code₂ (SigSrv.disconnectEvent s₂.hostId m₂).1 = none ∧
      ∀ c₂ : String, s₂.clientId = some c₂ → c₂ ≠ "" →
        SigSrv.Msg.hostDisconnected c₂ ∈ (SigSrv.disconnectEvent s₂.hostId m₂).2) := by
  have hio : ∀ (m₂ : SigSrv.SMap) (code₂ : String) (s₂ : SigSrv.Session),
      (m₂.map Prod.fst).Nodup → SigSrv.mapGet code₂ m₂ = some s₂ →
      SigSrv.mapGet code₂ (SigSrv.disconnectEvent s₂.hostId m₂).1 = none ∧
      ∀ c₂ : String, s₂.clientId = some c₂ → c₂ ≠ "" →
        SigSrv.Msg.hostDisconnected c₂ ∈ (SigSrv.disconnectEvent s₂.hostId m₂).2 := by
    intro m₂ code₂ s₂ hnd hg
    exact ⟨SigSrv.mapGet_disconnect_host s₂.hostId code₂ m₂ s₂ hnd hg rfl,
      fun c₂ hc₂ hc₂ne =>
        SigSrv.disconnect_host_msg s₂.hostId code₂ m₂ s₂ c₂ hg rfl hc₂ hc₂ne⟩
  cases hcl : s.clients with
  | nil =>
    refine ⟨?_, ?_, ?_, hio⟩
    · simp [wsCloseHost, hget, hhost, hw, hcl]
    · intro _
      simp [wsCloseHost, hget, hhost, hw, hcl, SigSrv.mapGet_delete_self]
    · intro hne
      exact absurd rfl hne
  | cons a l =>
    refine ⟨?_, ?_, ?_, hio⟩
    · simp [wsCloseHost, hget, hhost, hw, hcl]
    · intro hnil
      simp [hcl] at hnil
    · intro _
      simp [wsCloseHost, hget, hhost, hw, hcl, SigSrv.mapGet_set_self]

/-- Witness for `host_disconnect_amended`: the host socket `w1` of the
concrete ws session disconnects; its client `w2` is notified and the session
is retained with a vacant host slot; in the Socket.IO variant the concrete
paired session is deleted and its client `c1` receives `hostDisconnected`. -/
theorem host_disconnect_amended_witness :
    ((wsCloseHost "w1" "CODE12" [("CODE12", wsPairedEx)]).2
      = wsPairedEx.clients.map (fun c => WsMsg.hostDisconnectedMsg c.ws)) ∧
    (mapGet "CODE12" (wsCloseHost "w1" "CODE12" [("CODE12", wsPairedEx)]).1
      = some { wsPairedEx with host := none }) ∧
    (SigSrv.mapGet "NNNNNN" (SigSrv.disconnectEvent SigSrv.pairedEx.hostId
        [("NNNNNN", SigSrv.pairedEx)]).1 = none) ∧
    SigSrv.Msg.hostDisconnected "c1" ∈ (SigSrv.disconnectEvent SigSrv.pairedEx.hostId
        [("NNNNNN", SigSrv.pairedEx)]).2 := by
  have h := host_disconnect_amended [("CODE12", wsPairedEx)] "CODE12" "w1" wsPairedEx
    { ws := "w1", id := 10 } (by decide) (by decide) (by decide)
  have hio := h.2.2.2 [("NNNNNN", SigSrv.pairedEx)] "NNNNNN" SigSrv.pairedEx
    (by decide) (by decide)
  exact ⟨h.1, h.2.2.1 (by decide), hio.1, hio.2 "c1" (by decide) (by decide)⟩

end SigWs
